import Mathlib

/-!
Verification of the rstflow pipeline (tiny-congress repository).

Shallow embedding of the core pipeline stages:
* `flatten_trees`   (src/rstflow/src/flatten_rst.py)
* `embed_edus`      (src/rstflow/src/embed.py)
* `cluster_nuclei`  (src/rstflow/src/cluster_nucleus.py)
* `attach_satellites` (src/rstflow/src/attach_satellites.py)
* `aggregate_clusters` (src/rstflow/src/aggregate.py)

Python dictionaries built by comprehension are modelled as last-wins lookup
functions (`reverse.find?`); JSON-level `dict.get` accesses are modelled with
`Option` fields; Python string truthiness (`if s:`) is modelled explicitly as
`s ≠ ""` / `Option.isSome` plus non-emptiness.  Numeric vector data is
modelled over `ℚ` where the code performs only ring operations, and over `ℝ`
for the satellite attacher, whose cosine branch divides by Euclidean norms.
-/

namespace RSTFlow

/-- Nuclearity tag of an EDU (pydantic `Literal["nucleus", "satellite"]`,
src/rstflow/src/schemas/rst.py). -/
inductive Nuclearity where
  | nucleus
  | satellite
deriving DecidableEq, Repr

/-- `RSTEDU` (src/rstflow/src/schemas/rst.py): elementary discourse unit. -/
structure RSTEDU where
  edu_id : String
  text : String
  span : Option (Int × Int)
deriving DecidableEq, Repr

/-- `RSTRelation` (src/rstflow/src/schemas/rst.py): parent-child relationship
between EDUs; `nuclearity` is the nuclearity of the child. -/
structure RSTRelation where
  child_id : String
  parent_id : Option String
  relation : String
  nuclearity : Nuclearity
deriving DecidableEq, Repr

/-- `RSTParseResult` (src/rstflow/src/schemas/rst.py). -/
structure RSTParseResult where
  edus : List RSTEDU
  relations : List RSTRelation
  root_edu : Option String
deriving DecidableEq, Repr

/-- One line of the parsed-documents JSONL input consumed by `flatten_trees`:
`doc_id`, optional `topic_id`, and the validated `rst` payload. -/
structure ParsedDoc where
  doc_id : String
  topic_id : Option String
  rst : RSTParseResult
deriving DecidableEq, Repr

/-- One flattened EDU record as emitted by `flatten_trees`
(src/rstflow/src/flatten_rst.py, lines 39-51). -/
structure FlatRow where
  doc_id : String
  topic_id : Option String
  edu_id : String
  text : String
  span : Option (Int × Int)
  nuclearity : Nuclearity
  relation : Option String
  parent_edu_id : Option String
  is_root : Bool
deriving DecidableEq, Repr

/-- The dict comprehension `{rel.child_id: rel for rel in parse_result.relations}`
(flatten_rst.py line 25): on duplicate `child_id` keys the later relation wins,
so lookup is `find?` over the reversed list. -/
def relationByChild (rels : List RSTRelation) (cid : String) : Option RSTRelation :=
  rels.reverse.find? (fun r => r.child_id == cid)

/-- The inner per-document loop of `flatten_trees`
(flatten_rst.py lines 20-51): one record per EDU, in document order.
When the EDU has an incoming relation, nuclearity/relation/parent come from
it (lines 30-33); otherwise the EDU is a nucleus with no parent (lines 34-37).
`is_root` is `parse_result.root_edu == edu.edu_id` (line 49); in Python a
`None` root compares unequal to every id string. -/
def flattenOne (d : ParsedDoc) : List FlatRow :=
  d.rst.edus.map (fun edu =>
    let rel? := relationByChild d.rst.relations edu.edu_id
    { doc_id := d.doc_id
      topic_id := d.topic_id
      edu_id := edu.edu_id
      text := edu.text
      span := edu.span
      nuclearity := match rel? with
        | some rel => rel.nuclearity
        | none => Nuclearity.nucleus
      relation := match rel? with
        | some rel => some rel.relation
        | none => none
      parent_edu_id := match rel? with
        | some rel => rel.parent_id
        | none => none
      is_root := d.rst.root_edu == some edu.edu_id })

/-- `flatten_trees` (flatten_rst.py lines 15-53): concatenation of the
per-document records, in input order.  The only validation the source performs
is `RSTParseResult.model_validate`, i.e. field-shape validation, which the
typing of `ParsedDoc` models; no structural check (duplicate ids, dangling
relations) is performed. -/
def flatten_trees (docs : List ParsedDoc) : List FlatRow :=
  docs.flatMap flattenOne

/-! ### Embedding indexer (src/rstflow/src/embed.py) -/

/-- One element of `index["nucleus"]` (embed.py lines 87-97). -/
structure NucleusDesc where
  doc_id : String
  edu_id : String
  topic_id : Option String
  relation : Option String
  span : Option (Int × Int)
  is_root : Bool
deriving DecidableEq, Repr

/-- One element of `index["satellite"]` (embed.py lines 98-108). -/
structure SatelliteDesc where
  doc_id : String
  edu_id : String
  topic_id : Option String
  parent_edu_id : Option String
  relation : Option String
  span : Option (Int × Int)
deriving DecidableEq, Repr

/-- `numpy` total element count `.size` of a row matrix. -/
def matrixSize {α : Type} (m : List (List α)) : Nat :=
  (m.map List.length).sum

/-- `numpy` column count `.shape[1]` of a row matrix (0 when there are no rows). -/
def matrixDim {α : Type} (m : List (List α)) : Nat :=
  (m.head?.map List.length).getD 0

/-- `_encode_texts` (embed.py lines 36-48): empty input short-circuits to a
`(0, 0)` matrix, otherwise the external embedder is called once on the whole
batch. -/
def _encode_texts (encode : List String → List (List ℚ)) (texts : List String) :
    List (List ℚ) :=
  if texts = [] then [] else encode texts

/-- The `index.jsonl` payload written by `embed_edus` (embed.py lines 79-109). -/
structure EmbedIndex where
  model : String
  device : Option String
  dimension : Nat
  counts_nucleus : Nat
  counts_satellite : Nat
  nucleus : List NucleusDesc
  satellite : List SatelliteDesc
deriving DecidableEq, Repr

/-- The three artifacts written by `embed_edus`: `nucleus.npy`,
`satellite.npy` and `index.jsonl`. -/
structure EmbedOutput where
  nucleus_vectors : List (List ℚ)
  satellite_vectors : List (List ℚ)
  index : EmbedIndex
deriving DecidableEq, Repr

/-- `embed_edus` (embed.py lines 51-111).  Partitions rows by `nuclearity`
(lines 63-64), encodes each non-empty category in one batch (lines 68-69),
derives the dimension (lines 71-74) and builds the index payload.  The
external embedder is the `encode` parameter. -/
def embed_edus (rows : List FlatRow) (model_name : String) (device : Option String)
    (encode : List String → List (List ℚ)) : EmbedOutput :=
  let nuclei := rows.filter (fun row => row.nuclearity == Nuclearity.nucleus)
  let satellites := rows.filter (fun row => row.nuclearity == Nuclearity.satellite)
  let nucleus_vectors := _encode_texts encode (nuclei.map (fun row => row.text))
  let satellite_vectors := _encode_texts encode (satellites.map (fun row => row.text))
  let dimension :=
    if matrixSize nucleus_vectors ≠ 0 then matrixDim nucleus_vectors
    else if matrixSize satellite_vectors ≠ 0 then matrixDim satellite_vectors
    else 0
  { nucleus_vectors := nucleus_vectors
    satellite_vectors := satellite_vectors
    index :=
      { model := model_name
        device := device
        dimension := dimension
        counts_nucleus := nuclei.length
        counts_satellite := satellites.length
        nucleus := nuclei.map (fun row =>
          { doc_id := row.doc_id, edu_id := row.edu_id, topic_id := row.topic_id
            relation := row.relation, span := row.span, is_root := row.is_root })
        satellite := satellites.map (fun row =>
          { doc_id := row.doc_id, edu_id := row.edu_id, topic_id := row.topic_id
            parent_edu_id := row.parent_edu_id, relation := row.relation
            span := row.span }) } }

/-! ### Nucleus clusterer (src/rstflow/src/cluster_nucleus.py) -/

/-- Result of the external `KMeans.fit_predict` call: per-row labels, the
centroid matrix `cluster_centers_`, and `inertia_`. -/
structure KMeansResult where
  labels : List Nat
  centers : List (List ℚ)
  inertia : ℚ
deriving DecidableEq, Repr

/-- One cluster member (cluster_nucleus.py lines 61-73). -/
structure ClusterMember where
  index : Nat
  doc_id : String
  edu_id : String
  topic_id : Option String
  relation : Option String
  span : Option (Int × Int)
  is_root : Bool
deriving DecidableEq, Repr

/-- One cluster record (cluster_nucleus.py lines 75-82). -/
structure ClusterRec where
  cluster_id : Int
  size : Nat
  centroid : List ℚ
  members : List ClusterMember
deriving DecidableEq, Repr

/-- The clusters JSON payload (cluster_nucleus.py lines 84-100). -/
structure ClusterPayload where
  n_clusters : Int
  random_state : Int
  inertia : ℚ
  counts_clusters : Int
  counts_nucleus : Nat
  clusters : List ClusterRec
deriving DecidableEq, Repr

/-- Member record built from `metadata["nucleus"][idx]`
(cluster_nucleus.py lines 62-73). -/
def memberOfDesc (i : Nat) (m : NucleusDesc) : ClusterMember :=
  { index := i, doc_id := m.doc_id, edu_id := m.edu_id, topic_id := m.topic_id
    relation := m.relation, span := m.span, is_root := m.is_root }

/-- `cluster_nuclei` (cluster_nucleus.py lines 31-104).  The precondition
checks of lines 41-46 run before the `KMeans` model is built; the external
k-means is the `kmeans` parameter (applied to `k`, `seed` and the vectors),
so an error result is produced without consulting it.  Member lists are
rebuilt from the labels exactly as in lines 58-73. -/
def cluster_nuclei (vectors : List (List ℚ)) (metadata : List NucleusDesc)
    (k : Int) (seed : Int) (kmeans : Int → Int → List (List ℚ) → KMeansResult) :
    Except String ClusterPayload :=
  if matrixSize vectors = 0 then
    .error "No nucleus embeddings available to cluster."
  else if k ≤ 0 then
    .error "k must be greater than zero."
  else if k > (vectors.length : Int) then
    .error "k exceeds number of nuclei."
  else
    let result := kmeans k seed vectors
    let clusters := (List.range k.toNat).map (fun cid =>
      let member_indices :=
        ((result.labels.enum).filter (fun p => p.2 == cid)).map (fun p => p.1)
      { cluster_id := (cid : Int)
        size := member_indices.length
        centroid := (result.centers.get? cid).getD []
        members := member_indices.filterMap (fun i =>
          (metadata.get? i).map (fun m => memberOfDesc i m)) })
    .ok
      { n_clusters := k
        random_state := seed
        inertia := result.inertia
        counts_clusters := k
        counts_nucleus := vectors.length
        clusters := clusters }

/-! ### Satellite attacher (src/rstflow/src/attach_satellites.py)

The attacher divides by Euclidean norms in its cosine branch, so its vector
arithmetic is embedded over `ℝ`. -/

/-- `metric: Literal["cosine", "dot"]` (attach_satellites.py line 42). -/
inductive Metric where
  | cosine
  | dot
deriving DecidableEq, Repr

/-- One cluster as read from the clusters JSON (fields used by the attacher:
`cluster_id`, `centroid`, `members`). -/
structure AttachClusterIn where
  cluster_id : Int
  centroid : List ℝ
  members : List ClusterMember

/-- One satellite assignment record (attach_satellites.py lines 79-91). -/
structure SatRecord where
  index : Nat
  doc_id : String
  edu_id : String
  topic_id : Option String
  parent_edu_id : Option String
  relation : Option String
  span : Option (Int × Int)
  attachment : String
  score : Option ℝ
  cluster_id : Int

/-- One cluster of the output payload, now carrying its appended
`satellites` list. -/
structure AttachClusterOut where
  cluster_id : Int
  centroid : List ℝ
  members : List ClusterMember
  satellites : List SatRecord

/-- The output payload of `attach_satellites`
(attach_satellites.py lines 95-107). -/
structure AttachPayload where
  metric : Metric
  counts_clusters : Nat
  counts_satellites : Nat
  clusters : List AttachClusterOut
  assignments : List SatRecord

/-- Sum of squares of a vector. -/
def sumsq (v : List ℝ) : ℝ :=
  (v.map (fun x => x ^ 2)).sum

/-- Row-wise Euclidean norm, `np.linalg.norm(matrix, axis=1)`. -/
noncomputable def l2norm (v : List ℝ) : ℝ :=
  Real.sqrt (sumsq v)

/-- One row of `_normalize_matrix` (attach_satellites.py lines 32-34): divide
by the norm, with zero norms replaced by `1.0`. -/
noncomputable def _normalize_row (v : List ℝ) : List ℝ :=
  let n := l2norm v
  let d := if n = 0 then 1 else n
  v.map (fun x => x / d)

/-- `_normalize_matrix` (attach_satellites.py lines 29-34): a zero-size
matrix is returned unchanged, otherwise every row is L2-normalized. -/
noncomputable def _normalize_matrix (m : List (List ℝ)) : List (List ℝ) :=
  if matrixSize m = 0 then m else m.map _normalize_row

/-- Row-times-vector product, one entry of `centroids @ vector`.  (`numpy`
requires equal lengths; `zipWith` truncates, which is only exercised on
well-shaped inputs.) -/
def dotList (a b : List ℝ) : ℝ :=
  (List.zipWith (fun x y => x * y) a b).sum

/-- `np.argmax`: index of the first occurrence of the maximum. -/
noncomputable def argmaxAux : List ℝ → Nat → Nat → ℝ → Nat
  | [], _, best, _ => best
  | x :: xs, i, best, bv =>
      if bv < x then argmaxAux xs (i + 1) i x else argmaxAux xs (i + 1) best bv

/-- `np.argmax` over a list of scores (never applied to `[]` on the live
path, because the zero-size centroid check fires first). -/
noncomputable def argmaxList (xs : List ℝ) : Nat :=
  match xs with
  | [] => 0
  | x :: rest => argmaxAux rest 1 0 x

/-- The `nucleus_to_cluster` dict (attach_satellites.py lines 52-55): keyed
by `member["edu_id"]` alone; a later member with the same `edu_id`
overwrites an earlier one. -/
def nucleusToCluster (clusters : List AttachClusterIn) : String → Option Int :=
  clusters.foldl
    (fun acc c =>
      c.members.foldl
        (fun acc2 mem => fun key =>
          if key = mem.edu_id then some c.cluster_id else acc2 key)
        acc)
    (fun _ => none)

/-- The `(edu_id, cluster_id)` pairs in the iteration order of the
`nucleus_to_cluster` loop (attach_satellites.py lines 53-55): all clusters in
order, all members in order.  `doc_id` is not part of the key. -/
def nucleusPairs (clusters : List AttachClusterIn) : List (String × Int) :=
  clusters.flatMap (fun c => c.members.map (fun m => (m.edu_id, c.cluster_id)))

/-- The `cluster_map` dict (attach_satellites.py line 50) keyed by
`cluster["cluster_id"]`: maps an id to the position of the last cluster
carrying it (Python dict references the last object inserted). -/
def lastClusterIdx (clusters : List AttachClusterIn) (cid : Int) : Option Nat :=
  (clusters.enum.reverse.find? (fun p => p.2.cluster_id == cid)).map (fun p => p.1)

/-- The nearest-centroid fallback branch (attach_satellites.py lines 70-77):
the zero-size centroid check (lines 71-72) is raised before the vector is
read; the score is the arg-max similarity, and the recorded `cluster_id` is
`int(np.argmax(scores))`, i.e. the arg-max position. -/
noncomputable def attachNearest (centroids satellite_vectors : List (List ℝ))
    (idx : Nat) (m : SatelliteDesc) : Except String SatRecord :=
  if matrixSize centroids = 0 then
    .error "Cannot attach satellites without clusters."
  else
    match satellite_vectors[idx]? with
    | none => .error "satellite vector index out of range"
    | some vector =>
        let scores := centroids.map (fun c => dotList c vector)
        let best := argmaxList scores
        .ok
          { index := idx, doc_id := m.doc_id, edu_id := m.edu_id
            topic_id := m.topic_id, parent_edu_id := m.parent_edu_id
            relation := m.relation, span := m.span
            attachment := "nearest", score := some (scores.getD best 0)
            cluster_id := (best : Int) }

/-- The per-satellite decision (attach_satellites.py lines 64-91): parent
link first — `if parent_id and parent_id in nucleus_to_cluster` (line 66,
Python truthiness: `None` and `""` both fail) — otherwise the
nearest-centroid fallback. -/
noncomputable def attachOne (nmap : String → Option Int)
    (centroids satellite_vectors : List (List ℝ)) (idx : Nat)
    (m : SatelliteDesc) : Except String SatRecord :=
  let parentCluster : Option Int :=
    match m.parent_edu_id with
    | some p => if p ≠ "" then nmap p else none
    | none => none
  match parentCluster with
  | some cid =>
      .ok
        { index := idx, doc_id := m.doc_id, edu_id := m.edu_id
          topic_id := m.topic_id, parent_edu_id := m.parent_edu_id
          relation := m.relation, span := m.span
          attachment := "parent", score := none, cluster_id := cid }
  | none => attachNearest centroids satellite_vectors idx m

/-- The satellite loop (attach_satellites.py lines 63-93): records are
produced in input order; the append `cluster_map[cluster_id]` (line 92)
raises `KeyError` when no cluster carries the record's id, aborting the
stage. -/
noncomputable def attachLoop (nmap : String → Option Int)
    (clusters : List AttachClusterIn) (centroids satvecs : List (List ℝ)) :
    List (Nat × SatelliteDesc) → Except String (List SatRecord)
  | [] => .ok []
  | (idx, m) :: rest =>
      match attachOne nmap centroids satvecs idx m with
      | .error e => .error e
      | .ok r =>
          match lastClusterIdx clusters r.cluster_id with
          | none => .error "KeyError: cluster_id not in cluster_map"
          | some _ =>
              match attachLoop nmap clusters centroids satvecs rest with
              | .error e => .error e
              | .ok rs => .ok (r :: rs)

/-- The scoring centroid matrix (attach_satellites.py lines 58-60): stacked
cluster centroids, L2-normalized when the metric is cosine. -/
noncomputable def attachCentroids (clusters : List AttachClusterIn)
    (metric : Metric) : List (List ℝ) :=
  match metric with
  | .cosine => _normalize_matrix (clusters.map (fun c => c.centroid))
  | .dot => clusters.map (fun c => c.centroid)

/-- The scoring satellite vectors (attach_satellites.py lines 59-61):
L2-normalized when the metric is cosine, raw for dot. -/
noncomputable def attachVectors (satellite_vectors : List (List ℝ))
    (metric : Metric) : List (List ℝ) :=
  match metric with
  | .cosine => _normalize_matrix satellite_vectors
  | .dot => satellite_vectors

/-- `attach_satellites` (attach_satellites.py lines 37-111).  The cosine
metric normalizes the centroid matrix and satellite vectors before scoring
(lines 59-61); the output clusters carry the satellite records appended to
them via `cluster_map` (line 92), i.e. the records whose `cluster_id`
resolves to that cluster position. -/
noncomputable def attach_satellites (satellite_vectors : List (List ℝ))
    (index_satellite : List SatelliteDesc) (clusters : List AttachClusterIn)
    (metric : Metric) : Except String AttachPayload :=
  match attachLoop (nucleusToCluster clusters) clusters
      (attachCentroids clusters metric)
      (attachVectors satellite_vectors metric) index_satellite.enum with
  | .error e => .error e
  | .ok assignments =>
      .ok
        { metric := metric
          counts_clusters := clusters.length
          counts_satellites := assignments.length
          clusters := clusters.enum.map (fun p =>
            { cluster_id := p.2.cluster_id
              centroid := p.2.centroid
              members := p.2.members
              satellites := assignments.filter (fun r =>
                lastClusterIdx clusters r.cluster_id == some p.1) })
          assignments := assignments }

/-- Specification-side statement of the (amended) two-tier attachment rule
of spec section 4.4, to be compared with the behaviour of `attachOne`:
parent-link first for a present, non-empty `parent_edu_id` that maps to a
clustered nucleus (no score recorded); otherwise nearest-centroid against
the scoring matrices, with the arg-max position recorded as `cluster_id`
and the winning similarity as `score`. -/
def twoTierSpec (nmap : String → Option Int) (cents svecs : List (List ℝ))
    (i : Nat) (sat : SatelliteDesc) (r : SatRecord) : Prop :=
  (∃ p cid, sat.parent_edu_id = some p ∧ p ≠ "" ∧ nmap p = some cid
    ∧ r.attachment = "parent" ∧ r.score = none ∧ r.cluster_id = cid)
  ∨ ((∀ p, sat.parent_edu_id = some p → p ≠ "" → nmap p = none)
    ∧ ∃ v, svecs[i]? = some v
      ∧ r.attachment = "nearest"
      ∧ r.cluster_id = (argmaxList (cents.map (fun c => dotList c v)) : Int)
      ∧ r.score = some ((cents.map (fun c => dotList c v)).getD
          (argmaxList (cents.map (fun c => dotList c v))) 0))

/-! ### Aggregator (src/rstflow/src/aggregate.py) -/

/-- One satellite as read from the clusters-with-satellites JSON (fields the
aggregator touches; `score` is carried opaquely, modelled over `ℚ` to keep
the aggregator computable — the aggregator never computes with it). -/
structure AggSatIn where
  doc_id : String
  edu_id : String
  topic_id : Option String
  relation : Option String
  attachment : Option String
  score : Option ℚ
deriving DecidableEq, Repr

/-- One cluster as read by the aggregator. -/
structure AggClusterIn where
  cluster_id : Int
  centroid : Option (List ℚ)
  members : List ClusterMember
  satellites : List AggSatIn
deriving DecidableEq, Repr

/-- One enriched nucleus entry (aggregate.py lines 40-49). -/
structure NucleusEntry where
  doc_id : String
  edu_id : String
  text : Option String
  relation : Option String
  is_root : Bool
  topic_id : Option String
deriving DecidableEq, Repr

/-- One enriched satellite entry (aggregate.py lines 61-70). -/
structure SatEntry where
  doc_id : String
  edu_id : String
  text : Option String
  attachment : Option String
  score : Option ℚ
  topic_id : Option String
deriving DecidableEq, Repr

/-- One aggregated cluster (aggregate.py lines 72-82). -/
structure AggCluster where
  cluster_id : Int
  headline : Option String
  nuclei : List NucleusEntry
  satellites_by_relation : List (String × List SatEntry)
  commonality : Nat
  satellite_count : Nat
  centroid : Option (List ℚ)
deriving DecidableEq, Repr

/-- The snapshot payload (aggregate.py lines 86-93). -/
structure Snapshot where
  counts_clusters : Nat
  total_nuclei : Nat
  total_satellites : Nat
  clusters : List AggCluster
deriving DecidableEq, Repr

/-- `_load_flattened` (aggregate.py lines 16-18): dict keyed by
`(doc_id, edu_id)`; on duplicate keys the later row wins. -/
def _load_flattened (rows : List FlatRow) : String × String → Option FlatRow :=
  fun key => rows.reverse.find? (fun r => r.doc_id == key.1 && r.edu_id == key.2)

/-- Python string truthiness of an optional text value: `None` and `""` are
falsy, every other string is truthy. -/
def strTruthy : Option String → Bool
  | some s => s != ""
  | none => false

/-- `defaultdict(list)` bucket append preserving first-insertion key order
and per-bucket encounter order (aggregate.py lines 56-70). -/
def bucketsInsert (bs : List (String × List SatEntry)) (key : String)
    (e : SatEntry) : List (String × List SatEntry) :=
  match bs with
  | [] => [(key, [e])]
  | (k, es) :: rest =>
      if k == key then (k, es ++ [e]) :: rest
      else (k, es) :: bucketsInsert rest key e

/-- The enriched nucleus entry dict literal (aggregate.py lines 40-49):
`text` is the `(doc_id, edu_id)` lookup into the flat table. -/
def nucleusEntryOf (lookup : String × String → Option FlatRow)
    (member : ClusterMember) : NucleusEntry :=
  { doc_id := member.doc_id
    edu_id := member.edu_id
    text := (lookup (member.doc_id, member.edu_id)).map (fun r => r.text)
    relation := member.relation
    is_root := member.is_root
    topic_id := member.topic_id }

/-- The enriched satellite entry dict literal (aggregate.py lines 61-70). -/
def satEntryOf (lookup : String × String → Option FlatRow)
    (sat : AggSatIn) : SatEntry :=
  { doc_id := sat.doc_id
    edu_id := sat.edu_id
    text := (lookup (sat.doc_id, sat.edu_id)).map (fun r => r.text)
    attachment := sat.attachment
    score := sat.score
    topic_id := sat.topic_id }

/-- The bucket key `sat.get("relation") or "unspecified"` (aggregate.py
line 60): Python `or` sends both `None` and `""` to `"unspecified"`. -/
def satRelKey (sat : AggSatIn) : String :=
  match sat.relation with
  | some r => if r != "" then r else "unspecified"
  | none => "unspecified"

/-- The per-cluster body of `aggregate_clusters` (aggregate.py lines 34-82):
enrich members with text via `(doc_id, edu_id)` lookup, select the headline
(lines 51-54: first root-flagged entry with truthy text, else the first
entry's text when truthy, else `None`), group satellites by
`relation or "unspecified"`. -/
def aggOne (lookup : String × String → Option FlatRow)
    (cluster : AggClusterIn) : AggCluster :=
  let nuclei_entries := cluster.members.map (nucleusEntryOf lookup)
  let root_candidates := nuclei_entries.filter (fun e => e.is_root && strTruthy e.text)
  let headline :=
    match root_candidates with
    | e :: _ => e.text
    | [] =>
        match nuclei_entries with
        | e :: _ => if strTruthy e.text then e.text else none
        | [] => none
  let satellites_by_relation := cluster.satellites.foldl
    (fun bs sat => bucketsInsert bs (satRelKey sat) (satEntryOf lookup sat))
    []
  { cluster_id := cluster.cluster_id
    headline := headline
    nuclei := nuclei_entries
    satellites_by_relation := satellites_by_relation
    commonality := nuclei_entries.length
    satellite_count := (satellites_by_relation.map (fun b => b.2.length)).sum
    centroid := cluster.centroid }

/-- The sort comparator of aggregate.py line 84: Python's stable ascending
sort on the key `(-commonality, -satellite_count)`. -/
def aggLE (a b : AggCluster) : Bool :=
  decide (b.commonality < a.commonality) ||
    (decide (a.commonality = b.commonality) &&
      decide (b.satellite_count ≤ a.satellite_count))

/-- `aggregate_clusters` (aggregate.py lines 21-97). -/
def aggregate_clusters (rows : List FlatRow) (clustersIn : List AggClusterIn) :
    Snapshot :=
  let lookup := _load_flattened rows
  let aggregated := clustersIn.map (aggOne lookup)
  let sorted := aggregated.mergeSort aggLE
  { counts_clusters := sorted.length
    total_nuclei := (sorted.map (fun c => c.commonality)).sum
    total_satellites := (sorted.map (fun c => c.satellite_count)).sum
    clusters := sorted }

/-! ### Concrete fixtures used by counterexample and witness theorems -/

/-- A document whose tree is malformed in both senses the spec names:
`e1` occurs twice among the EDU ids, and the sole relation references the
unknown child id `zz`. -/
def c1doc : ParsedDoc :=
  ⟨"d1", none,
    ⟨[⟨"e1", "a", none⟩, ⟨"e1", "b", none⟩],
     [⟨"zz", some "e1", "elaboration", Nuclearity.satellite⟩],
     some "e1"⟩⟩

/-- A document whose parse carries no declared root (`root_edu = None`). -/
def c2doc : ParsedDoc :=
  ⟨"d2", none, ⟨[⟨"e1", "t", none⟩], [], none⟩⟩

/-- A well-formed one-EDU document: declared root present, unique, with no
incoming relation. -/
def w2doc : ParsedDoc :=
  ⟨"dw", none, ⟨[⟨"e1", "t", none⟩], [], some "e1"⟩⟩

/-- A flat table whose only row has empty text: the `(d, e1)` lookup
succeeds but yields `""`. -/
def c4rows : List FlatRow :=
  [⟨"d", none, "e1", "", none, Nuclearity.nucleus, none, none, true⟩]

/-- One cluster whose sole member is root-flagged and refers to `(d, e1)`. -/
def c4clusters : List AggClusterIn :=
  [⟨0, none, [⟨0, "d", "e1", none, none, none, true⟩], []⟩]

/-- A flat table supplying non-empty text `X` for `(d, e1)`. -/
def w4rows : List FlatRow :=
  [⟨"d", none, "e1", "X", none, Nuclearity.nucleus, none, none, true⟩]

/-- A singleton cluster whose root member resolves to text `X`. -/
def w4cluster : AggClusterIn :=
  ⟨0, none, [⟨0, "d", "e1", none, none, none, true⟩], []⟩

/-- A cluster with one member and one satellite, used against an empty flat
table so that every text lookup misses. -/
def w10cluster : AggClusterIn :=
  ⟨0, none, [⟨0, "d", "e1", none, none, none, true⟩],
   [⟨"d", "e2", none, some "elaboration", some "parent", none⟩]⟩

/-- One cluster whose sole (non-root) member has the empty string as its
`edu_id`, so the empty id is a clustered nucleus. -/
def c3clusters : List AttachClusterIn :=
  [⟨0, [2], [⟨0, "dX", "", none, none, none, false⟩]⟩]

/-- A satellite whose `parent_edu_id` is present but empty. -/
def c3sat : SatelliteDesc :=
  ⟨"dY", "t1", none, some "", none, none⟩

/-- A satellite with no parent at all, forcing the nearest-centroid branch. -/
def w3sat : SatelliteDesc :=
  ⟨"dZ", "u1", none, none, none, none⟩

/-- A single cluster for the nearest-centroid witness run. -/
def w3clusters : List AttachClusterIn :=
  [⟨0, [2], [⟨0, "dW", "m1", none, none, none, true⟩]⟩]

/-- The assignment record the attacher produces for `w3sat` against
`w3clusters` with vector `[3]` and the dot metric: similarity `2 * 3 = 6`. -/
def w3rec : SatRecord :=
  ⟨0, "dZ", "u1", none, none, none, none, "nearest", some 6, 0⟩

/-- The full payload of that witness run. -/
def w3payload : AttachPayload :=
  ⟨.dot, 1, 1,
   [⟨0, [2], [⟨0, "dW", "m1", none, none, none, true⟩], [w3rec]⟩],
   [w3rec]⟩

/-- A satellite with no parent for the cosine-metric witness run. -/
def w7sat : SatelliteDesc :=
  ⟨"dQ", "q1", none, none, none, none⟩

/-- A single cluster with the unit centroid `[0, 1]`. -/
def w7clusters : List AttachClusterIn :=
  [⟨0, [0, 1], [⟨0, "dP", "p1", none, none, none, true⟩]⟩]

/-- The assignment record of the cosine witness run: the satellite vector
`[1, 0]` and the centroid `[0, 1]` are already unit, and their cosine
similarity is `0`. -/
def w7rec : SatRecord :=
  ⟨0, "dQ", "q1", none, none, none, none, "nearest", some 0, 0⟩

/-- The full payload of the cosine witness run (output clusters keep their
raw, unnormalized centroids). -/
def w7payload : AttachPayload :=
  ⟨.cosine, 1, 1,
   [⟨0, [0, 1], [⟨0, "dP", "p1", none, none, none, true⟩], [w7rec]⟩],
   [w7rec]⟩

/-- One cluster whose sole member's `edu_id` is the empty string. -/
def c9clusters : List AttachClusterIn :=
  [⟨0, [1], [⟨0, "dA", "", none, none, none, true⟩]⟩]

/-- A satellite (in another document) whose `parent_edu_id` is the empty
string — present, and equal to the `edu_id` of a clustered nucleus. -/
def c9sat : SatelliteDesc :=
  ⟨"dB", "s1", none, some "", none, none⟩

/-- Two clusters in two documents whose nuclei share the `edu_id` `n1`;
the second cluster is encountered last in cluster-member iteration order. -/
def w9clusters : List AttachClusterIn :=
  [⟨0, [1], [⟨0, "dA", "n1", none, none, none, true⟩]⟩,
   ⟨1, [2], [⟨1, "dB", "n1", none, none, none, false⟩]⟩]

/-- A satellite in a third document whose parent id is `n1`. -/
def w9sat : SatelliteDesc :=
  ⟨"dC", "s1", none, some "n1", none, none⟩

/-- The parent-attachment record produced for `w9sat`: cluster `1` wins. -/
def w9rec : SatRecord :=
  ⟨0, "dC", "s1", none, some "n1", none, none, "parent", none, 1⟩

/-- The full payload of the cross-document parent-attachment run. -/
def w9payload : AttachPayload :=
  ⟨.dot, 2, 1,
   [⟨0, [1], [⟨0, "dA", "n1", none, none, none, true⟩], []⟩,
    ⟨1, [2], [⟨1, "dB", "n1", none, none, none, false⟩], [w9rec]⟩],
   [w9rec]⟩

end RSTFlow

namespace RSTFlow

/-! ### Shared helper lemmas -/

/-- `find?` commutes with a `filter` whose predicate is implied by the
searched-for predicate. -/
theorem find?_filter_of_imp {α : Type} (l : List α) (p q : α → Bool)
    (h : ∀ x, p x = true → q x = true) :
    (l.filter q).find? p = l.find? p := by
  induction l with
  | nil => rfl
  | cons a l ih =>
      by_cases hq : q a = true
      · rw [List.filter_cons_of_pos hq]
        rw [List.find?_cons, List.find?_cons]
        cases hp : p a
        · exact ih
        · rfl
      · rw [List.filter_cons_of_neg hq]
        rw [List.find?_cons]
        cases hp : p a
        · exact ih
        · exact absurd (h a hp) hq

/-- Relations whose `child_id` does not satisfy a predicate implied by the
queried id can be filtered away without changing the lookup. -/
theorem relationByChild_filter (rels : List RSTRelation) (q : RSTRelation → Bool)
    (cid : String) (h : ∀ r, (r.child_id == cid) = true → q r = true) :
    relationByChild (rels.filter q) cid = relationByChild rels cid := by
  unfold relationByChild
  rw [← List.filter_reverse]
  exact find?_filter_of_imp rels.reverse _ q h

/-! ### Claim C1 -/

/-- C1 counterexample.  The claim says a malformed tree (duplicate EDU ids,
or a relation whose `child_id` matches no EDU) is rejected before any record
is emitted.  On `c1doc` — whose EDU ids are `["e1", "e1"]` and whose sole
relation references the unknown child `zz` — `flatten_trees` emits two
records instead of rejecting the document. -/
theorem C1_counterexample :
    (c1doc.rst.edus.map RSTEDU.edu_id = ["e1", "e1"])
    ∧ (∀ r ∈ c1doc.rst.relations, ∀ e ∈ c1doc.rst.edus, r.child_id ≠ e.edu_id)
    ∧ flatten_trees [c1doc] ≠ []
    ∧ (flatten_trees [c1doc]).length = 2 := by
  decide

/-- C1 amended.  `flatten_trees` performs no structural validation: every
EDU of every document yields exactly one record (duplicate ids included), and
a relation whose `child_id` matches no EDU of its document is silently
ignored — filtering all such relations away leaves the output unchanged. -/
theorem C1_no_structural_validation :
    ∀ (docs : List ParsedDoc),
      (flatten_trees docs).length = (docs.map (fun d => d.rst.edus.length)).sum
    ∧ ∀ (d : ParsedDoc),
        flattenOne
          { d with rst :=
            { d.rst with relations :=
                (d.rst.relations.filter
                  (fun r => d.rst.edus.any (fun e => e.edu_id == r.child_id))) } }
          = flattenOne d := by
  intro docs
  constructor
  · have h : (List.length ∘ flattenOne) = fun d : ParsedDoc => d.rst.edus.length := by
      funext d
      simp [Function.comp, flattenOne]
    simp [flatten_trees, List.flatMap, h]
  · intro d
    unfold flattenOne
    apply List.map_congr_left
    intro edu hedu
    have hrel : relationByChild
        (d.rst.relations.filter (fun r => d.rst.edus.any (fun e => e.edu_id == r.child_id)))
        edu.edu_id = relationByChild d.rst.relations edu.edu_id := by
      apply relationByChild_filter
      intro r hr
      have hcid : r.child_id = edu.edu_id := beq_iff_eq.mp hr
      have : (edu.edu_id == r.child_id) = true := by simp [hcid]
      exact List.any_of_mem hedu this
    simp only [hrel]

/-! ### Claim C2 -/

/-- C2 counterexample.  The claim says every input tree yields exactly one
record with `is_root = true` per document.  On `c2doc`, whose `root_edu` is
absent, one record is emitted and none is root-flagged. -/
theorem C2_counterexample :
    (flatten_trees [c2doc]).countP (fun rec0 => rec0.is_root) = 0
    ∧ (flatten_trees [c2doc]).length = 1 := by
  decide

/-- C2 amended.  For a document whose declared `root_edu` is present, occurs
exactly once among the EDU ids, and has no incoming relation, exactly one
flattened record is root-flagged, and every root-flagged record has absent
`parent_edu_id` and absent `relation`. -/
theorem C2_unique_root (d : ParsedDoc) (r : String)
    (h1 : d.rst.root_edu = some r)
    (h2 : d.rst.edus.countP (fun e => e.edu_id == r) = 1)
    (h3 : ∀ rel ∈ d.rst.relations, rel.child_id ≠ r) :
    (flatten_trees [d]).countP (fun rec0 => rec0.is_root) = 1
    ∧ ∀ rec0 ∈ flatten_trees [d], rec0.is_root = true →
        rec0.parent_edu_id = none ∧ rec0.relation = none := by
  have hflat : flatten_trees [d] = flattenOne d := by
    simp [flatten_trees]
  constructor
  · rw [hflat]
    unfold flattenOne
    rw [List.countP_map]
    rw [← h2]
    apply List.countP_congr
    intro e he
    simp [Function.comp, h1]
    exact eq_comm
  · intro rec0 hmem hroot
    rw [hflat] at hmem
    unfold flattenOne at hmem
    rcases List.mem_map.mp hmem with ⟨edu, hedu, heq⟩
    have hid : r = edu.edu_id := by
      rw [← heq] at hroot
      simp [h1] at hroot
      exact hroot
    have hnone : relationByChild d.rst.relations edu.edu_id = none := by
      unfold relationByChild
      rw [List.find?_eq_none]
      intro x hx
      have := h3 x (List.mem_reverse.mp hx)
      simp [← hid]
      exact this
    rw [← heq]
    simp [hnone]

/-- C2 witness: the amended theorem applied to the well-formed one-EDU
document `w2doc` with root `e1`. -/
theorem C2_unique_root_witness :
    (flatten_trees [w2doc]).countP (fun rec0 => rec0.is_root) = 1
    ∧ ∀ rec0 ∈ flatten_trees [w2doc], rec0.is_root = true →
        rec0.parent_edu_id = none ∧ rec0.relation = none :=
  C2_unique_root w2doc "e1" rfl (by decide) (by decide)

/-! ### Claim C5 -/

/-- C5.  `cluster_nuclei` fails fast on every precondition violation —
`k < 1`, `k` exceeding the number of nucleus vectors, or an empty nucleus
matrix — and the error is produced uniformly for every possible k-means
implementation, i.e. before any clustering work runs. -/
theorem C5_cluster_preconditions (vectors : List (List ℚ))
    (metadata : List NucleusDesc) (k : Int) (seed : Int)
    (h : k < 1 ∨ k > (vectors.length : Int) ∨ matrixSize vectors = 0) :
    ∃ msg, ∀ kmeans : Int → Int → List (List ℚ) → KMeansResult,
      cluster_nuclei vectors metadata k seed kmeans = .error msg := by
  unfold cluster_nuclei
  by_cases h0 : matrixSize vectors = 0
  · exact ⟨_, fun kmeans => by rw [if_pos h0]⟩
  · by_cases h1 : k ≤ 0
    · exact ⟨_, fun kmeans => by rw [if_neg h0, if_pos h1]⟩
    · have h2 : k > (vectors.length : Int) := by
        rcases h with h | h | h
        · omega
        · exact h
        · exact absurd h h0
      exact ⟨_, fun kmeans => by rw [if_neg h0, if_neg h1, if_pos h2]⟩

/-- C5 witness: `k = 0` with one nucleus vector is rejected for every
k-means implementation. -/
theorem C5_cluster_preconditions_witness :
    ∃ msg, ∀ kmeans : Int → Int → List (List ℚ) → KMeansResult,
      cluster_nuclei [[1]] [] 0 13 kmeans = .error msg :=
  C5_cluster_preconditions [[1]] [] 0 13 (Or.inl (by decide))

/-! ### Claim C8 -/

/-- C8.  The indexer's nucleus and satellite counts sum to the input row
count; each category's key sequence is a subsequence of the input key
sequence (table order preserved); and every row lands in the category
matching its `nuclearity` — a partition, since the `nuclearity` field of a
flat EDU record is the schema literal `nucleus | satellite`. -/
theorem C8_category_partition (rows : List FlatRow) (model_name : String)
    (device : Option String) (encode : List String → List (List ℚ)) :
    (embed_edus rows model_name device encode).index.counts_nucleus
      + (embed_edus rows model_name device encode).index.counts_satellite
      = rows.length
    ∧ ((embed_edus rows model_name device encode).index.nucleus.map
        (fun d => (d.doc_id, d.edu_id))).Sublist
        (rows.map (fun r => (r.doc_id, r.edu_id)))
    ∧ ((embed_edus rows model_name device encode).index.satellite.map
        (fun d => (d.doc_id, d.edu_id))).Sublist
        (rows.map (fun r => (r.doc_id, r.edu_id)))
    ∧ ∀ row ∈ rows,
        (row.nuclearity = Nuclearity.nucleus →
          (row.doc_id, row.edu_id)
            ∈ (embed_edus rows model_name device encode).index.nucleus.map
                (fun d => (d.doc_id, d.edu_id)))
      ∧ (row.nuclearity = Nuclearity.satellite →
          (row.doc_id, row.edu_id)
            ∈ (embed_edus rows model_name device encode).index.satellite.map
                (fun d => (d.doc_id, d.edu_id))) := by
  refine ⟨?_, ?_, ?_, ?_⟩
  · unfold embed_edus
    simp only []
    induction rows with
    | nil => rfl
    | cons r t ih =>
        cases hn : r.nuclearity <;> simp [List.filter_cons, hn, beq_iff_eq] <;> omega
  · unfold embed_edus
    simp only [List.map_map]
    exact (List.filter_sublist rows).map _
  · unfold embed_edus
    simp only [List.map_map]
    exact (List.filter_sublist rows).map _
  · intro row hrow
    constructor
    · intro hn
      unfold embed_edus
      simp only [List.map_map]
      rw [List.mem_map]
      refine ⟨row, ?_, rfl⟩
      rw [List.mem_filter]
      exact ⟨hrow, by simp [hn]⟩
    · intro hn
      unfold embed_edus
      simp only [List.map_map]
      rw [List.mem_map]
      refine ⟨row, ?_, rfl⟩
      rw [List.mem_filter]
      exact ⟨hrow, by simp [hn]⟩

/-- C8 witness: the partition property evaluated on a concrete two-row table
(one nucleus row, one satellite row) with a constant embedder. -/
theorem C8_category_partition_witness :
    (embed_edus [⟨"d", none, "e1", "a", none, Nuclearity.nucleus, none, none, true⟩,
        ⟨"d", none, "e2", "b", none, Nuclearity.satellite, some "elaboration", some "e1", false⟩]
        "m" none (fun ts => ts.map (fun _ => [1]))).index.counts_nucleus
      + (embed_edus [⟨"d", none, "e1", "a", none, Nuclearity.nucleus, none, none, true⟩,
        ⟨"d", none, "e2", "b", none, Nuclearity.satellite, some "elaboration", some "e1", false⟩]
        "m" none (fun ts => ts.map (fun _ => [1]))).index.counts_satellite
      = ([⟨"d", none, "e1", "a", none, Nuclearity.nucleus, none, none, true⟩,
        ⟨"d", none, "e2", "b", none, Nuclearity.satellite, some "elaboration", some "e1", false⟩] :
          List FlatRow).length
    ∧ ((embed_edus [⟨"d", none, "e1", "a", none, Nuclearity.nucleus, none, none, true⟩,
        ⟨"d", none, "e2", "b", none, Nuclearity.satellite, some "elaboration", some "e1", false⟩]
        "m" none (fun ts => ts.map (fun _ => [1]))).index.nucleus.map
        (fun d => (d.doc_id, d.edu_id))).Sublist
        (([⟨"d", none, "e1", "a", none, Nuclearity.nucleus, none, none, true⟩,
        ⟨"d", none, "e2", "b", none, Nuclearity.satellite, some "elaboration", some "e1", false⟩] :
          List FlatRow).map (fun r => (r.doc_id, r.edu_id)))
    ∧ ((embed_edus [⟨"d", none, "e1", "a", none, Nuclearity.nucleus, none, none, true⟩,
        ⟨"d", none, "e2", "b", none, Nuclearity.satellite, some "elaboration", some "e1", false⟩]
        "m" none (fun ts => ts.map (fun _ => [1]))).index.satellite.map
        (fun d => (d.doc_id, d.edu_id))).Sublist
        (([⟨"d", none, "e1", "a", none, Nuclearity.nucleus, none, none, true⟩,
        ⟨"d", none, "e2", "b", none, Nuclearity.satellite, some "elaboration", some "e1", false⟩] :
          List FlatRow).map (fun r => (r.doc_id, r.edu_id)))
    ∧ ∀ row ∈ ([⟨"d", none, "e1", "a", none, Nuclearity.nucleus, none, none, true⟩,
        ⟨"d", none, "e2", "b", none, Nuclearity.satellite, some "elaboration", some "e1", false⟩] :
          List FlatRow),
        (row.nuclearity = Nuclearity.nucleus →
          (row.doc_id, row.edu_id)
            ∈ (embed_edus [⟨"d", none, "e1", "a", none, Nuclearity.nucleus, none, none, true⟩,
                ⟨"d", none, "e2", "b", none, Nuclearity.satellite, some "elaboration", some "e1", false⟩]
                "m" none (fun ts => ts.map (fun _ => [1]))).index.nucleus.map
                (fun d => (d.doc_id, d.edu_id)))
      ∧ (row.nuclearity = Nuclearity.satellite →
          (row.doc_id, row.edu_id)
            ∈ (embed_edus [⟨"d", none, "e1", "a", none, Nuclearity.nucleus, none, none, true⟩,
                ⟨"d", none, "e2", "b", none, Nuclearity.satellite, some "elaboration", some "e1", false⟩]
                "m" none (fun ts => ts.map (fun _ => [1]))).index.satellite.map
                (fun d => (d.doc_id, d.edu_id))) :=
  C8_category_partition
    [⟨"d", none, "e1", "a", none, Nuclearity.nucleus, none, none, true⟩,
     ⟨"d", none, "e2", "b", none, Nuclearity.satellite, some "elaboration", some "e1", false⟩]
    "m" none (fun ts => ts.map (fun _ => [1]))

/-! ### Claim C6 -/

/-- C6.  The snapshot's cluster list is monotonically non-increasing in the
lexicographic pair `(commonality, satellite_count)`, and `total_nuclei`
equals the sum of the per-cluster `commonality` values. -/
theorem C6_snapshot_ordering (rows : List FlatRow) (clustersIn : List AggClusterIn) :
    ((aggregate_clusters rows clustersIn).clusters).Pairwise
      (fun a b => b.commonality < a.commonality
        ∨ (a.commonality = b.commonality ∧ b.satellite_count ≤ a.satellite_count))
    ∧ (aggregate_clusters rows clustersIn).total_nuclei
        = ((aggregate_clusters rows clustersIn).clusters.map
            (fun c => c.commonality)).sum := by
  constructor
  · have htrans : ∀ a b c : AggCluster, aggLE a b → aggLE b c → aggLE a c := by
      intro a b c hab hbc
      simp [aggLE] at *
      omega
    have htotal : ∀ a b : AggCluster, aggLE a b || aggLE b a := by
      intro a b
      simp [aggLE]
      omega
    have hs := List.sorted_mergeSort htrans htotal
      ((clustersIn.map (aggOne (_load_flattened rows))))
    have heq : (aggregate_clusters rows clustersIn).clusters
        = ((clustersIn.map (aggOne (_load_flattened rows))).mergeSort aggLE) := rfl
    rw [heq]
    apply hs.imp
    intro a b hab
    simp [aggLE] at hab
    omega
  · rfl

/-! ### Claims C4 and C10: aggregator lemmas -/

/-- The entry freshly inserted by `bucketsInsert` is in some bucket. -/
theorem bucketsInsert_mem_new (bs : List (String × List SatEntry)) (k : String)
    (e : SatEntry) : ∃ pair ∈ bucketsInsert bs k e, e ∈ pair.2 := by
  induction bs with
  | nil => exact ⟨(k, [e]), by simp [bucketsInsert]⟩
  | cons hd rest ih =>
      rcases hd with ⟨k1, es⟩
      by_cases hk : (k1 == k) = true
      · refine ⟨(k1, es ++ [e]), ?_, ?_⟩
        · simp [bucketsInsert, hk]
        · simp
      · rcases ih with ⟨pair, hpair, hmem⟩
        refine ⟨pair, ?_, hmem⟩
        simp [bucketsInsert, hk]
        right
        exact hpair

/-- `bucketsInsert` never drops an entry already present. -/
theorem bucketsInsert_preserve (bs : List (String × List SatEntry)) (k : String)
    (e : SatEntry) (pair : String × List SatEntry) (x : SatEntry)
    (h1 : pair ∈ bs) (hx : x ∈ pair.2) :
    ∃ pair2 ∈ bucketsInsert bs k e, x ∈ pair2.2 := by
  induction bs with
  | nil => simp at h1
  | cons hd rest ih =>
      rcases hd with ⟨k1, es⟩
      rcases List.mem_cons.mp h1 with h | h
      · by_cases hk : (k1 == k) = true
        · refine ⟨(k1, es ++ [e]), by simp [bucketsInsert, hk], ?_⟩
          rw [h] at hx
          simp at hx
          simp [hx]
        · exact ⟨(k1, es), by simp [bucketsInsert, hk], by rw [← h]; exact hx⟩
      · by_cases hk : (k1 == k) = true
        · exact ⟨pair, by simp [bucketsInsert, hk]; right; exact h, hx⟩
        · rcases ih h with ⟨pair2, hpair2, hx2⟩
          exact ⟨pair2, by simp [bucketsInsert, hk]; right; exact hpair2, hx2⟩

/-- The grouping fold never drops an entry already present. -/
theorem foldl_buckets_preserve (f : AggSatIn → SatEntry) (g : AggSatIn → String)
    (sats : List AggSatIn) (bs : List (String × List SatEntry))
    (pair : String × List SatEntry) (x : SatEntry)
    (h1 : pair ∈ bs) (hx : x ∈ pair.2) :
    ∃ pair2 ∈ sats.foldl (fun acc sat => bucketsInsert acc (g sat) (f sat)) bs,
      x ∈ pair2.2 := by
  induction sats generalizing bs pair with
  | nil => exact ⟨pair, h1, hx⟩
  | cons s rest ih =>
      rcases bucketsInsert_preserve bs (g s) (f s) pair x h1 hx with ⟨p2, hp2, hx2⟩
      exact ih _ p2 hp2 hx2

/-- Every processed satellite lands in some bucket of the grouping fold. -/
theorem foldl_buckets_mem (f : AggSatIn → SatEntry) (g : AggSatIn → String)
    (sats : List AggSatIn) (bs : List (String × List SatEntry))
    (s : AggSatIn) (hs : s ∈ sats) :
    ∃ pair ∈ sats.foldl (fun acc sat => bucketsInsert acc (g sat) (f sat)) bs,
      f s ∈ pair.2 := by
  induction sats generalizing bs with
  | nil => simp at hs
  | cons s1 rest ih =>
      rcases List.mem_cons.mp hs with h | h
      · rcases bucketsInsert_mem_new bs (g s1) (f s1) with ⟨pair, hpair, hmem⟩
        rw [h]
        exact foldl_buckets_preserve f g rest _ pair (f s1) hpair hmem
      · exact ih _ h

/-- C4 counterexample.  The claim says the headline is the text of the first
root-flagged member whose text lookup succeeded.  In `c4clusters` the sole
member is root-flagged and its `(d, e1)` lookup succeeds (yielding `""`), so
the claim demands headline `""`; the code instead tests Python truthiness,
rejects the empty string, and produces no headline at all. -/
theorem C4_counterexample :
    (_load_flattened c4rows ("d", "e1")).isSome = true
    ∧ (∃ m ∈ (c4clusters.headD ⟨0, none, [], []⟩).members, m.is_root = true)
    ∧ ((aggregate_clusters c4rows c4clusters).clusters.map (fun c => c.headline))
        = [none] := by
  refine ⟨by decide, by decide, ?_⟩
  simp [aggregate_clusters, aggOne, _load_flattened, c4rows, c4clusters,
    strTruthy, nucleusEntryOf]

/-- C4 amended.  Every input cluster's aggregated form appears in the
snapshot; its entries are the members enriched by table lookup; and the
headline is the text of the first root-flagged entry whose looked-up text is
present and non-empty, else the first entry's text when present and
non-empty, else absent. -/
theorem C4_headline_rule (rows : List FlatRow) (clustersIn : List AggClusterIn)
    (c : AggClusterIn) (hc : c ∈ clustersIn) :
    (aggOne (_load_flattened rows) c) ∈ (aggregate_clusters rows clustersIn).clusters
    ∧ (aggOne (_load_flattened rows) c).nuclei
        = c.members.map (nucleusEntryOf (_load_flattened rows))
    ∧ (aggOne (_load_flattened rows) c).headline
        = (match (aggOne (_load_flattened rows) c).nuclei.find?
              (fun e => e.is_root && strTruthy e.text) with
           | some e => e.text
           | none =>
               match (aggOne (_load_flattened rows) c).nuclei with
               | [] => none
               | e :: _ => if strTruthy e.text then e.text else none) := by
  refine ⟨?_, rfl, ?_⟩
  · show aggOne (_load_flattened rows) c
        ∈ (clustersIn.map (aggOne (_load_flattened rows))).mergeSort aggLE
    rw [List.mem_mergeSort]
    exact List.mem_map_of_mem _ hc
  · have hh : (aggOne (_load_flattened rows) c).headline
        = (match (aggOne (_load_flattened rows) c).nuclei.filter
              (fun e => e.is_root && strTruthy e.text) with
           | e :: _ => e.text
           | [] =>
               match (aggOne (_load_flattened rows) c).nuclei with
               | e :: _ => if strTruthy e.text then e.text else none
               | [] => none) := rfl
    have hfind := List.filter_head? (fun e => e.is_root && strTruthy e.text)
      ((aggOne (_load_flattened rows) c).nuclei)
    rw [hh]
    cases hf : ((aggOne (_load_flattened rows) c).nuclei).find?
        (fun e => e.is_root && strTruthy e.text) with
    | some e =>
        rw [hf] at hfind
        cases hflt : ((aggOne (_load_flattened rows) c).nuclei).filter
            (fun e => e.is_root && strTruthy e.text) with
        | nil => rw [hflt] at hfind; simp at hfind
        | cons e2 t =>
            rw [hflt] at hfind
            simp at hfind
            rw [hfind]
    | none =>
        rw [hf] at hfind
        have hflt : ((aggOne (_load_flattened rows) c).nuclei).filter
            (fun e => e.is_root && strTruthy e.text) = [] :=
          List.head?_eq_none_iff.mp hfind
        rw [hflt]
        cases (aggOne (_load_flattened rows) c).nuclei <;> rfl

/-- C4 witness: the headline rule applied to a singleton snapshot whose root
member resolves to the non-empty text `X`. -/
theorem C4_headline_rule_witness :
    (aggOne (_load_flattened w4rows) w4cluster)
        ∈ (aggregate_clusters w4rows [w4cluster]).clusters
    ∧ (aggOne (_load_flattened w4rows) w4cluster).nuclei
        = w4cluster.members.map (nucleusEntryOf (_load_flattened w4rows))
    ∧ (aggOne (_load_flattened w4rows) w4cluster).headline
        = (match (aggOne (_load_flattened w4rows) w4cluster).nuclei.find?
              (fun e => e.is_root && strTruthy e.text) with
           | some e => e.text
           | none =>
               match (aggOne (_load_flattened w4rows) w4cluster).nuclei with
               | [] => none
               | e :: _ => if strTruthy e.text then e.text else none) :=
  C4_headline_rule w4rows [w4cluster] w4cluster (by decide)

/-- C10.  The aggregator is total in the face of missing `(doc_id, edu_id)`
keys: a member whose lookup misses is still emitted as an entry with absent
text, an entry with absent text can never be a root-candidate (so it cannot
supply the headline via the `is_root` branch), and a satellite whose lookup
misses is still emitted, with absent text, into its relation bucket. -/
theorem C10_missing_text_total (rows : List FlatRow) (clustersIn : List AggClusterIn)
    (c : AggClusterIn) (hc : c ∈ clustersIn) :
    (aggOne (_load_flattened rows) c) ∈ (aggregate_clusters rows clustersIn).clusters
    ∧ (∀ member ∈ c.members,
        _load_flattened rows (member.doc_id, member.edu_id) = none →
          nucleusEntryOf (_load_flattened rows) member
              ∈ (aggOne (_load_flattened rows) c).nuclei
          ∧ (nucleusEntryOf (_load_flattened rows) member).text = none)
    ∧ (∀ e ∈ (aggOne (_load_flattened rows) c).nuclei,
          e.text = none → (e.is_root && strTruthy e.text) = false)
    ∧ (∀ sat ∈ c.satellites,
        _load_flattened rows (sat.doc_id, sat.edu_id) = none →
          ∃ pair ∈ (aggOne (_load_flattened rows) c).satellites_by_relation,
            satEntryOf (_load_flattened rows) sat ∈ pair.2
            ∧ (satEntryOf (_load_flattened rows) sat).text = none) := by
  refine ⟨?_, ?_, ?_, ?_⟩
  · show aggOne (_load_flattened rows) c
        ∈ (clustersIn.map (aggOne (_load_flattened rows))).mergeSort aggLE
    rw [List.mem_mergeSort]
    exact List.mem_map_of_mem _ hc
  · intro member hm hlook
    refine ⟨List.mem_map_of_mem _ hm, ?_⟩
    simp [nucleusEntryOf, hlook]
  · intro e he htext
    simp [htext, strTruthy]
  · intro sat hs hlook
    have hfold : (aggOne (_load_flattened rows) c).satellites_by_relation
        = c.satellites.foldl (fun acc s2 => bucketsInsert acc (satRelKey s2)
            (satEntryOf (_load_flattened rows) s2)) [] := rfl
    rw [hfold]
    rcases foldl_buckets_mem (satEntryOf (_load_flattened rows)) satRelKey
      c.satellites [] sat hs with ⟨pair, hpair, hmem⟩
    exact ⟨pair, hpair, hmem, by simp [satEntryOf, hlook]⟩

/-- C10 witness: against the empty flat table every lookup of `w10cluster`
misses; its member entry is still emitted with absent text. -/
theorem C10_missing_text_total_witness :
    nucleusEntryOf (_load_flattened []) ⟨0, "d", "e1", none, none, none, true⟩
        ∈ (aggOne (_load_flattened []) w10cluster).nuclei
    ∧ (nucleusEntryOf (_load_flattened [])
        ⟨0, "d", "e1", none, none, none, true⟩).text = none :=
  (C10_missing_text_total [] [w10cluster] w10cluster (by decide)).2.1
    ⟨0, "d", "e1", none, none, none, true⟩ (by decide) rfl

/-! ### Claims C3, C7, C9: attacher lemmas -/

/-- Applying the function-update fold of a pair list looks up the last
matching pair. -/
theorem foldl_update_eq_reverse_find (ps : List (String × Int))
    (f : String → Option Int) (key : String) :
    (ps.foldl (fun g q => fun k => if k = q.1 then some q.2 else g k) f) key
      = (match ps.reverse.find? (fun q => q.1 == key) with
         | some q => some q.2
         | none => f key) := by
  induction ps generalizing f with
  | nil => simp
  | cons q rest ih =>
      rw [List.foldl_cons]
      rw [ih]
      rw [List.reverse_cons, List.find?_append]
      cases hr : rest.reverse.find? (fun q2 => q2.1 == key) with
      | some r => simp [Option.or]
      | none =>
          simp only [Option.or, List.find?]
          by_cases hk : (q.1 == key) = true
          · have : key = q.1 := (beq_iff_eq.mp hk).symm
            simp [hk, this]
          · have : ¬ key = q.1 := fun h => hk (by simp [h])
            simp [hk, this]

/-- The nested member/cluster fold of `nucleus_to_cluster` equals the flat
fold over the `(edu_id, cluster_id)` pair list. -/
theorem nucleusToCluster_foldl (clusters : List AttachClusterIn)
    (f : String → Option Int) :
    clusters.foldl
      (fun acc c =>
        c.members.foldl
          (fun acc2 mem => fun key =>
            if key = mem.edu_id then some c.cluster_id else acc2 key)
          acc)
      f
    = (clusters.flatMap (fun c => c.members.map (fun m => (m.edu_id, c.cluster_id)))).foldl
        (fun g q => fun k => if k = q.1 then some q.2 else g k) f := by
  induction clusters generalizing f with
  | nil => rfl
  | cons c rest ih =>
      rw [List.foldl_cons, List.flatMap_cons, List.foldl_append]
      rw [List.foldl_map]
      exact ih _

/-- The `attachLoop` results, if any, are the per-satellite `attachOne`
results, positionally. -/
theorem attachLoop_ok_get (nmap : String → Option Int)
    (clusters : List AttachClusterIn) (cents svecs : List (List ℝ))
    (l : List (Nat × SatelliteDesc)) (rs : List SatRecord)
    (h : attachLoop nmap clusters cents svecs l = .ok rs) :
    rs.length = l.length
    ∧ ∀ (i : Nat) (pr : Nat × SatelliteDesc), l[i]? = some pr →
        ∃ r, rs[i]? = some r
          ∧ attachOne nmap cents svecs pr.1 pr.2 = .ok r := by
  induction l generalizing rs with
  | nil =>
      simp [attachLoop] at h
      subst h
      refine ⟨rfl, ?_⟩
      intro i pr hpr
      rw [List.getElem?_nil] at hpr
      exact absurd hpr (by simp)
  | cons hd rest ih =>
      rcases hd with ⟨idx, m⟩
      rw [attachLoop] at h
      cases h1 : attachOne nmap cents svecs idx m with
      | error e => simp only [h1] at h; exact absurd h (by simp)
      | ok r =>
          simp only [h1] at h
          cases h2 : lastClusterIdx clusters r.cluster_id with
          | none => simp only [h2] at h; exact absurd h (by simp)
          | some j =>
              simp only [h2] at h
              cases h3 : attachLoop nmap clusters cents svecs rest with
              | error e => simp only [h3] at h; exact absurd h (by simp)
              | ok rs2 =>
                  simp only [h3] at h
                  simp at h
                  subst h
                  rcases ih rs2 h3 with ⟨hlen, hget⟩
                  refine ⟨by simp [hlen], ?_⟩
                  intro i pr hpr
                  cases i with
                  | zero =>
                      simp at hpr
                      subst hpr
                      exact ⟨r, by simp, h1⟩
                  | succ i2 =>
                      simp at hpr
                      rcases hget i2 pr hpr with ⟨r2, hr2, hone⟩
                      exact ⟨r2, by simpa using hr2, hone⟩

/-- Every record of a successful `attachLoop` run is an `attachOne` result
for some input position. -/
theorem attachLoop_ok_mem (nmap : String → Option Int)
    (clusters : List AttachClusterIn) (cents svecs : List (List ℝ)) :
    ∀ (l : List (Nat × SatelliteDesc)) (rs : List SatRecord),
      attachLoop nmap clusters cents svecs l = .ok rs →
      ∀ r ∈ rs, ∃ pr ∈ l, attachOne nmap cents svecs pr.1 pr.2 = .ok r := by
  intro l
  induction l with
  | nil =>
      intro rs h r hr
      simp [attachLoop] at h
      subst h
      simp at hr
  | cons hd rest ih =>
      rcases hd with ⟨idx, m⟩
      intro rs h r hr
      rw [attachLoop] at h
      cases h1 : attachOne nmap cents svecs idx m with
      | error e => simp only [h1] at h; exact absurd h (by simp)
      | ok r1 =>
          simp only [h1] at h
          cases h2 : lastClusterIdx clusters r1.cluster_id with
          | none => simp only [h2] at h; exact absurd h (by simp)
          | some j =>
              simp only [h2] at h
              cases h3 : attachLoop nmap clusters cents svecs rest with
              | error e => simp only [h3] at h; exact absurd h (by simp)
              | ok rs2 =>
                  simp only [h3] at h
                  simp at h
                  subst h
                  rcases List.mem_cons.mp hr with hr | hr
                  · exact ⟨(idx, m), by simp, by rw [h1, hr]⟩
                  · rcases ih rs2 h3 r hr with ⟨pr, hpr, hone⟩
                    exact ⟨pr, by simp; right; exact hpr, hone⟩

/-- `attachLoop` only consults its cluster list through `lastClusterIdx`. -/
theorem attachLoop_congr_clusters (nmap : String → Option Int)
    (c1 c2 : List AttachClusterIn) (cents svecs : List (List ℝ))
    (h : ∀ cid, lastClusterIdx c1 cid = lastClusterIdx c2 cid) :
    ∀ l, attachLoop nmap c1 cents svecs l = attachLoop nmap c2 cents svecs l
  | [] => rfl
  | (idx, m) :: rest => by
      rw [attachLoop, attachLoop]
      cases attachOne nmap cents svecs idx m with
      | error e => rfl
      | ok r =>
          dsimp only
          rw [h r.cluster_id]
          cases lastClusterIdx c2 r.cluster_id with
          | none => rfl
          | some j =>
              rw [attachLoop_congr_clusters nmap c1 c2 cents svecs h rest]

/-- `enumFrom` commutes with `map`. -/
theorem enumFrom_map {α β : Type} (g : α → β) :
    ∀ (n : Nat) (l : List α),
      (l.map g).enumFrom n = (l.enumFrom n).map (fun p => (p.1, g p.2))
  | _, [] => rfl
  | n, x :: xs => by
      simp only [List.map_cons, List.enumFrom_cons]
      rw [enumFrom_map g (n + 1) xs]

/-- Replacing centroids does not move clusters, so `cluster_map` positions
are unchanged. -/
theorem lastClusterIdx_map_centroid (clusters : List AttachClusterIn)
    (f : AttachClusterIn → List ℝ) (cid : Int) :
    lastClusterIdx (clusters.map (fun c => { c with centroid := f c })) cid
      = lastClusterIdx clusters cid := by
  unfold lastClusterIdx
  unfold List.enum
  rw [enumFrom_map]
  rw [← List.map_reverse, List.find?_map, Option.map_map]
  rfl

/-- Replacing centroids leaves the `nucleus_to_cluster` map unchanged. -/
theorem nucleusToCluster_map_centroid (clusters : List AttachClusterIn)
    (f : AttachClusterIn → List ℝ) :
    nucleusToCluster (clusters.map (fun c => { c with centroid := f c }))
      = nucleusToCluster clusters := by
  unfold nucleusToCluster
  rw [List.foldl_map]

/-- A successful nearest-centroid fallback names the satellite vector and
the arg-max record explicitly. -/
theorem attachNearest_ok (cents svecs : List (List ℝ)) (idx : Nat)
    (m : SatelliteDesc) (r : SatRecord)
    (h : attachNearest cents svecs idx m = .ok r) :
    matrixSize cents ≠ 0 ∧ ∃ v, svecs[idx]? = some v ∧
      r = { index := idx, doc_id := m.doc_id, edu_id := m.edu_id
            topic_id := m.topic_id, parent_edu_id := m.parent_edu_id
            relation := m.relation, span := m.span
            attachment := "nearest"
            score := some ((cents.map (fun c => dotList c v)).getD
              (argmaxList (cents.map (fun c => dotList c v))) 0)
            cluster_id := (argmaxList (cents.map (fun c => dotList c v)) : Int) } := by
  rw [attachNearest] at h
  by_cases hsz : matrixSize cents = 0
  · rw [if_pos hsz] at h
    exact absurd h (by simp)
  · rw [if_neg hsz] at h
    cases hv : svecs[idx]? with
    | none => simp only [hv] at h; exact absurd h (by simp)
    | some v =>
        simp only [hv] at h
        exact ⟨hsz, v, rfl, (Except.ok.inj h).symm⟩

/-- Every successful `attachOne` result satisfies the two-tier rule. -/
theorem attachOne_spec (nmap : String → Option Int)
    (cents svecs : List (List ℝ)) (idx : Nat) (m : SatelliteDesc)
    (r : SatRecord) (h : attachOne nmap cents svecs idx m = .ok r) :
    twoTierSpec nmap cents svecs idx m r := by
  rw [attachOne] at h
  cases hpar : m.parent_edu_id with
  | none =>
      simp only [hpar] at h
      rcases attachNearest_ok _ _ _ _ _ h with ⟨hsz, v, hv, hr⟩
      right
      refine ⟨?_, v, hv, ?_, ?_, ?_⟩
      · intro p2 hp2
        rw [hpar] at hp2
        exact absurd hp2 (by simp)
      · rw [hr]
      · rw [hr]
      · rw [hr]
  | some p =>
      simp only [hpar] at h
      by_cases hp : p = ""
      · subst hp
        rw [if_neg (by simp)] at h
        rcases attachNearest_ok _ _ _ _ _ h with ⟨hsz, v, hv, hr⟩
        right
        refine ⟨?_, v, hv, ?_, ?_, ?_⟩
        · intro p2 hp2 hne
          rw [hpar] at hp2
          have : p2 = "" := (Option.some.inj hp2).symm
          exact absurd this hne
        · rw [hr]
        · rw [hr]
        · rw [hr]
      · rw [if_pos hp] at h
        cases hm : nmap p with
        | some cid =>
            simp only [hm] at h
            left
            refine ⟨p, cid, hpar, hp, hm, ?_, ?_, ?_⟩
            · rw [← Except.ok.inj h]
            · rw [← Except.ok.inj h]
            · rw [← Except.ok.inj h]
        | none =>
            simp only [hm] at h
            rcases attachNearest_ok _ _ _ _ _ h with ⟨hsz, v, hv, hr⟩
            right
            refine ⟨?_, v, hv, ?_, ?_, ?_⟩
            · intro p2 hp2 hne
              rw [hpar] at hp2
              rw [← Option.some.inj hp2]
              exact hm
            · rw [hr]
            · rw [hr]
            · rw [hr]

/-- Sums of squares are nonnegative. -/
theorem sumsq_nonneg (v : List ℝ) : 0 ≤ sumsq v := by
  apply List.sum_nonneg
  intro x hx
  rcases List.mem_map.mp hx with ⟨y, hy, rfl⟩
  positivity

/-- Cauchy-Schwarz for the truncating list dot product, squared form. -/
theorem dotList_sq_le (a : List ℝ) : ∀ (b : List ℝ),
    (dotList a b) ^ 2 ≤ sumsq a * sumsq b := by
  induction a with
  | nil =>
      intro b
      simp [dotList, sumsq]
  | cons x xs ih =>
      intro b
      cases b with
      | nil =>
          simp [dotList, sumsq]
      | cons y ys =>
          have hA := sumsq_nonneg xs
          have hB := sumsq_nonneg ys
          have ihd := ih ys
          have hdot : dotList (x :: xs) (y :: ys) = x * y + dotList xs ys := by
            simp [dotList]
          have hsa : sumsq (x :: xs) = x ^ 2 + sumsq xs := by
            simp [sumsq]
          have hsb : sumsq (y :: ys) = y ^ 2 + sumsq ys := by
            simp [sumsq]
          rw [hdot, hsa, hsb]
          set d := dotList xs ys with hd
          set A := sumsq xs with hA2
          set B := sumsq ys with hB2
          by_cases hB0 : B = 0
          · have hd0 : d ^ 2 ≤ 0 := by rw [hB0] at ihd; simpa using ihd
            have : d = 0 := by nlinarith [sq_nonneg d]
            rw [this, hB0]
            nlinarith [sq_nonneg y, sq_nonneg x, mul_nonneg hA (sq_nonneg y)]
          · have hBpos : 0 < B := lt_of_le_of_ne hB (Ne.symm hB0)
            nlinarith [sq_nonneg (B * x - d * y),
              mul_nonneg (sub_nonneg.mpr ihd) (sq_nonneg y),
              mul_nonneg (sub_nonneg.mpr ihd) hB]

/-- Dividing every component by `c` divides the sum of squares by `c ^ 2`. -/
theorem sumsq_map_div (v : List ℝ) (c : ℝ) :
    sumsq (v.map (fun x => x / c)) = sumsq v / c ^ 2 := by
  induction v with
  | nil => simp [sumsq]
  | cons x xs ih =>
      simp only [List.map_cons, sumsq, List.sum_cons] at *
      rw [ih]
      rw [div_pow, add_div]

/-- A normalized row has sum of squares at most one (one when the row is
nonzero, zero when it is the zero vector). -/
theorem sumsq_normalize_le_one (v : List ℝ) : sumsq (_normalize_row v) ≤ 1 := by
  unfold _normalize_row l2norm
  by_cases hn : Real.sqrt (sumsq v) = 0
  · have hz : sumsq v = 0 := by
      have h1 := Real.sqrt_eq_zero'.mp hn
      exact le_antisymm h1 (sumsq_nonneg v)
    simp only [hn, if_pos rfl]
    rw [sumsq_map_div]
    rw [hz]
    norm_num
  · simp only [if_neg hn]
    rw [sumsq_map_div]
    rw [Real.sq_sqrt (sumsq_nonneg v)]
    have hvz : sumsq v ≠ 0 := by
      intro h
      rw [h] at hn
      exact hn Real.sqrt_zero
    rw [div_self hvz]

/-- `_normalize_matrix` is row-wise normalization (even its zero-size guard
returns the same matrix as normalizing every — necessarily empty — row). -/
theorem _normalize_matrix_eq_map (m : List (List ℝ)) :
    _normalize_matrix m = m.map _normalize_row := by
  unfold _normalize_matrix
  by_cases h : matrixSize m = 0
  · rw [if_pos h]
    unfold matrixSize at h
    have hrows : ∀ r ∈ m, r = ([] : List ℝ) := by
      intro r hr
      have : r.length = 0 := by
        have := List.sum_eq_zero_iff.mp h
        exact this r.length (List.mem_map_of_mem _ hr)
      exact List.length_eq_zero.mp this
    have : m.map _normalize_row = m.map id := by
      apply List.map_congr_left
      intro r hr
      rw [hrows r hr]
      rfl
    rw [this, List.map_id]
  · rw [if_neg h]

/-- The dot product of two vectors with sums of squares at most one lies in
`[-1, 1]`. -/
theorem dotList_bounds (a b : List ℝ) (ha : sumsq a ≤ 1) (hb : sumsq b ≤ 1) :
    -1 ≤ dotList a b ∧ dotList a b ≤ 1 := by
  have h1 := dotList_sq_le a b
  have h2 : (dotList a b) ^ 2 ≤ 1 := by
    calc (dotList a b) ^ 2 ≤ sumsq a * sumsq b := h1
    _ ≤ 1 := by nlinarith [sumsq_nonneg a, sumsq_nonneg b]
  constructor
  · nlinarith [sq_nonneg (dotList a b + 1)]
  · nlinarith [sq_nonneg (dotList a b - 1)]

/-- A `getD`-selected element of a list of values in `[-1, 1]` (default `0`)
is in `[-1, 1]`. -/
theorem getD_bounds (scores : List ℝ) (i : Nat)
    (h : ∀ x ∈ scores, -1 ≤ x ∧ x ≤ 1) :
    -1 ≤ scores.getD i 0 ∧ scores.getD i 0 ≤ 1 := by
  rw [List.getD_eq_getElem?_getD]
  cases hv : scores[i]? with
  | none => norm_num
  | some x => simpa using h x (List.getElem?_mem hv)

/-! ### Claim C3 -/

/-- C3 counterexample.  The claim says a satellite whose `parent_edu_id` is
present and maps to a clustered nucleus is attached via `parent` with no
score.  `c3sat` carries the present parent id `""`, which is the `edu_id`
of a clustered nucleus in `c3clusters`; the code's Python truthiness test
rejects the empty string, and the satellite is attached via `nearest` with
score `2 * 3 = 6`. -/
theorem C3_counterexample :
    nucleusToCluster c3clusters "" = some 0
    ∧ c3sat.parent_edu_id = some ""
    ∧ (attach_satellites [[3]] [c3sat] c3clusters .dot).map
        (fun p2 => p2.assignments.map (fun r => (r.attachment, r.score)))
      = .ok [("nearest", some 6)] := by
  refine ⟨by simp [nucleusToCluster, c3clusters], rfl, ?_⟩
  norm_num [attach_satellites, attachLoop, attachOne, attachNearest,
    attachCentroids, attachVectors, matrixSize, dotList, argmaxList, argmaxAux,
    lastClusterIdx, nucleusToCluster, c3clusters, c3sat, List.enum,
    List.enumFrom, Except.map]

/-- C3 amended.  With zero clusters, any satellite forces a hard error; and
on success every satellite's record follows the two-tier rule with the
parent link requiring a present and non-empty `parent_edu_id` (Python
truthiness), the nearest branch recording the arg-max position as
`cluster_id` and the winning similarity as `score`. -/
theorem C3_two_tier_decision (svecs : List (List ℝ)) (sats : List SatelliteDesc)
    (clusters : List AttachClusterIn) (metric : Metric) :
    (clusters = [] → sats ≠ [] →
      ∃ e, attach_satellites svecs sats clusters metric = .error e)
    ∧ ∀ (payload : AttachPayload),
        attach_satellites svecs sats clusters metric = .ok payload →
        payload.assignments.length = sats.length
        ∧ ∀ (i : Nat) (sat : SatelliteDesc), sats[i]? = some sat →
            ∃ r, payload.assignments[i]? = some r
              ∧ twoTierSpec (nucleusToCluster clusters)
                  (attachCentroids clusters metric) (attachVectors svecs metric)
                  i sat r := by
  constructor
  · intro hcl hne
    subst hcl
    cases sats with
    | nil => exact absurd rfl hne
    | cons s rest =>
        unfold attach_satellites
        have h0 : matrixSize (attachCentroids [] metric) = 0 := by
          cases metric <;> simp [attachCentroids, _normalize_matrix, matrixSize]
        have hone : attachOne (nucleusToCluster []) (attachCentroids [] metric)
            (attachVectors svecs metric) 0 s
            = .error "Cannot attach satellites without clusters." := by
          rw [attachOne]
          have hpc : (match s.parent_edu_id with
              | some p => if p ≠ "" then nucleusToCluster [] p else none
              | none => none) = (none : Option Int) := by
            cases s.parent_edu_id with
            | none => rfl
            | some p =>
                show (if p ≠ "" then nucleusToCluster [] p else none) = none
                have hnm : nucleusToCluster [] p = none := rfl
                rw [hnm, ite_self]
          simp only [hpc]
          rw [attachNearest, if_pos h0]
        have henum : (s :: rest).enum = (0, s) :: rest.enumFrom 1 := rfl
        rw [henum, attachLoop]
        simp only [hone]
        exact ⟨_, rfl⟩
  · intro payload hok
    unfold attach_satellites at hok
    cases hl : attachLoop (nucleusToCluster clusters) clusters
        (attachCentroids clusters metric) (attachVectors svecs metric)
        sats.enum with
    | error e => simp only [hl] at hok; exact absurd hok (by simp)
    | ok asg =>
        simp only [hl] at hok
        have hpl : payload.assignments = asg := by
          have h2 := Except.ok.inj hok
          rw [← h2]
        rcases attachLoop_ok_get _ _ _ _ _ _ hl with ⟨hlen, hget⟩
        constructor
        · rw [hpl, hlen]
          simp
        · intro i sat hi
          have hienum : sats.enum[i]? = some (i, sat) := by
            unfold List.enum
            rw [List.getElem?_enumFrom]
            simp [hi]
          rcases hget i (i, sat) hienum with ⟨r, hr, hone⟩
          exact ⟨r, by rw [hpl]; exact hr, attachOne_spec _ _ _ _ _ _ hone⟩

/-- C3 witness: the amended rule applied to a one-cluster, one-satellite
run under the dot metric, where the parentless satellite goes to the
nearest centroid. -/
theorem C3_two_tier_decision_witness :
    ∃ r, w3payload.assignments[0]? = some r
      ∧ twoTierSpec (nucleusToCluster w3clusters)
          (attachCentroids w3clusters .dot) (attachVectors [[3]] .dot)
          0 w3sat r :=
  ((C3_two_tier_decision [[3]] [w3sat] w3clusters .dot).2 w3payload
    (by norm_num [attach_satellites, attachLoop, attachOne, attachNearest,
      attachCentroids, attachVectors, matrixSize, dotList, argmaxList,
      argmaxAux, lastClusterIdx, nucleusToCluster, w3clusters, w3sat,
      w3payload, w3rec, List.enum, List.enumFrom, List.filter])).2
    0 w3sat rfl

/-! ### Claim C9 -/

/-- C9 counterexample.  The claim says every satellite whose
`parent_edu_id` equals the `edu_id` of a clustered nucleus is attached via
`parent`.  The empty id `""` is a clustered nucleus of `c9clusters` and
`c9sat.parent_edu_id = some ""`, yet the satellite is attached via
`nearest` with a recorded score. -/
theorem C9_counterexample :
    nucleusToCluster c9clusters "" = some 0
    ∧ c9sat.parent_edu_id = some ""
    ∧ (attach_satellites [[1]] [c9sat] c9clusters .dot).map
        (fun p2 => p2.assignments.map (fun r => (r.attachment, r.cluster_id, r.score)))
      = .ok [("nearest", 0, some 1)] := by
  refine ⟨by simp [nucleusToCluster, c9clusters], rfl, ?_⟩
  norm_num [attach_satellites, attachLoop, attachOne, attachNearest,
    attachCentroids, attachVectors, matrixSize, dotList, argmaxList, argmaxAux,
    lastClusterIdx, nucleusToCluster, c9clusters, c9sat, List.enum,
    List.enumFrom, Except.map]

/-- C9 amended.  The `nucleus_to_cluster` map is keyed by `edu_id` alone —
its lookup equals a last-wins search over the `(edu_id, cluster_id)` pairs
in cluster-member iteration order, with `doc_id` playing no role — and a
satellite whose `parent_edu_id` is present and non-empty and equals such a
key (including one contributed by a nucleus of a different document) is
attached via `parent` to the mapped cluster. -/
theorem C9_parent_link_keyed_by_edu_id :
    (∀ (clusters : List AttachClusterIn) (key : String),
        nucleusToCluster clusters key
          = ((nucleusPairs clusters).reverse.find? (fun q => q.1 == key)).map
              (fun q => q.2))
    ∧ ∀ (svecs : List (List ℝ)) (sats : List SatelliteDesc)
        (clusters : List AttachClusterIn) (metric : Metric)
        (payload : AttachPayload) (i : Nat) (sat : SatelliteDesc)
        (p : String) (cid : Int),
        attach_satellites svecs sats clusters metric = .ok payload →
        sats[i]? = some sat → sat.parent_edu_id = some p → p ≠ "" →
        nucleusToCluster clusters p = some cid →
        ∃ r, payload.assignments[i]? = some r
          ∧ r.attachment = "parent" ∧ r.cluster_id = cid ∧ r.score = none := by
  constructor
  · intro clusters key
    have h1 : nucleusToCluster clusters key
        = ((nucleusPairs clusters).foldl
            (fun g q => fun k => if k = q.1 then some q.2 else g k)
            (fun _ => none)) key := by
      unfold nucleusToCluster nucleusPairs
      rw [nucleusToCluster_foldl]
    rw [h1, foldl_update_eq_reverse_find]
    cases (nucleusPairs clusters).reverse.find? (fun q => q.1 == key) <;> rfl
  · intro svecs sats clusters metric payload i sat p cid hok hi hpar hp hmap
    unfold attach_satellites at hok
    cases hl : attachLoop (nucleusToCluster clusters) clusters
        (attachCentroids clusters metric) (attachVectors svecs metric)
        sats.enum with
    | error e => simp only [hl] at hok; exact absurd hok (by simp)
    | ok asg =>
        simp only [hl] at hok
        have hpl : payload.assignments = asg := by
          have h2 := Except.ok.inj hok
          rw [← h2]
        rcases attachLoop_ok_get _ _ _ _ _ _ hl with ⟨hlen, hget⟩
        have hienum : sats.enum[i]? = some (i, sat) := by
          unfold List.enum
          rw [List.getElem?_enumFrom]
          simp [hi]
        rcases hget i (i, sat) hienum with ⟨r, hr, hone⟩
        rw [attachOne] at hone
        simp only [hpar] at hone
        rw [if_pos hp] at hone
        simp only [hmap] at hone
        refine ⟨r, by rw [hpl]; exact hr, ?_⟩
        have h2 := Except.ok.inj hone
        rw [← h2]
        exact ⟨rfl, rfl, rfl⟩

/-- C9 witness: two clusters in different documents share the nucleus id
`n1`; the satellite with parent `n1` is attached via `parent` to cluster
`1`, the one whose nucleus is encountered last. -/
theorem C9_parent_link_keyed_by_edu_id_witness :
    ∃ r, w9payload.assignments[0]? = some r
      ∧ r.attachment = "parent" ∧ r.cluster_id = 1 ∧ r.score = none :=
  C9_parent_link_keyed_by_edu_id.2 [[1]] [w9sat] w9clusters .dot w9payload
    0 w9sat "n1" 1
    (by have h1 : ¬ (("n1" : String) = "") := by decide
        simp [attach_satellites, attachLoop, attachOne, attachNearest,
          attachCentroids, attachVectors, matrixSize, lastClusterIdx,
          nucleusToCluster, h1, w9clusters, w9sat, w9payload, w9rec,
          List.enum, List.enumFrom, List.filter])
    rfl rfl (by decide) (by simp [nucleusToCluster, w9clusters])

/-! ### Claim C7 -/

/-- C7.  Under the cosine metric the attacher L2-normalizes both the
centroid matrix and the satellite vectors before scoring — its assignments
equal those of a dot-metric run on the pre-normalized inputs — and every
score of a nearest-centroid attachment under cosine lies in `[-1, 1]`. -/
theorem C7_cosine_normalization :
    (∀ (svecs : List (List ℝ)) (sats : List SatelliteDesc)
        (clusters : List AttachClusterIn),
        (attach_satellites svecs sats clusters .cosine).map
            (fun p2 => p2.assignments)
          = (attach_satellites (_normalize_matrix svecs) sats
              (clusters.map (fun c => { c with centroid := _normalize_row c.centroid }))
              .dot).map (fun p2 => p2.assignments))
    ∧ ∀ (svecs : List (List ℝ)) (sats : List SatelliteDesc)
        (clusters : List AttachClusterIn) (payload : AttachPayload)
        (r : SatRecord),
        attach_satellites svecs sats clusters .cosine = .ok payload →
        r ∈ payload.assignments → r.attachment = "nearest" →
        ∃ s, r.score = some s ∧ -1 ≤ s ∧ s ≤ 1 := by
  constructor
  · intro svecs sats clusters
    unfold attach_satellites
    have hc : attachCentroids
        (clusters.map (fun c => { c with centroid := _normalize_row c.centroid })) .dot
        = attachCentroids clusters .cosine := by
      unfold attachCentroids
      dsimp only
      rw [_normalize_matrix_eq_map, List.map_map, List.map_map]
      rfl
    have hm : nucleusToCluster
        (clusters.map (fun c => { c with centroid := _normalize_row c.centroid }))
        = nucleusToCluster clusters :=
      nucleusToCluster_map_centroid clusters _
    have hvv : attachVectors (_normalize_matrix svecs) Metric.dot
        = attachVectors svecs Metric.cosine := rfl
    have hl : attachLoop (nucleusToCluster clusters)
        (clusters.map (fun c => { c with centroid := _normalize_row c.centroid }))
        (attachCentroids clusters .cosine) (attachVectors svecs .cosine) sats.enum
        = attachLoop (nucleusToCluster clusters) clusters
          (attachCentroids clusters .cosine) (attachVectors svecs .cosine)
          sats.enum :=
      attachLoop_congr_clusters _ _ _ _ _
        (fun cid => lastClusterIdx_map_centroid clusters _ cid) sats.enum
    rw [hm, hc, hvv, hl]
    cases attachLoop (nucleusToCluster clusters) clusters
        (attachCentroids clusters .cosine) (attachVectors svecs .cosine)
        sats.enum with
    | error e => rfl
    | ok asg => rfl
  · intro svecs sats clusters payload r hok hr hn
    unfold attach_satellites at hok
    cases hl : attachLoop (nucleusToCluster clusters) clusters
        (attachCentroids clusters .cosine) (attachVectors svecs .cosine)
        sats.enum with
    | error e => simp only [hl] at hok; exact absurd hok (by simp)
    | ok asg =>
        simp only [hl] at hok
        have hpl : payload.assignments = asg := by
          have h2 := Except.ok.inj hok
          rw [← h2]
        rw [hpl] at hr
        rcases attachLoop_ok_mem _ _ _ _ _ _ hl r hr with ⟨pr, hpr, hone⟩
        rcases attachOne_spec _ _ _ _ _ _ hone with hparent | hnearest
        · rcases hparent with ⟨p, cid, _, _, _, hatt, _, _⟩
          rw [hatt] at hn
          exact absurd hn (by simp)
        · rcases hnearest with ⟨_, v, hv, _, _, hscore⟩
          have hvin : v ∈ attachVectors svecs Metric.cosine :=
            List.getElem?_mem hv
          have hvn : sumsq v ≤ 1 := by
            have hveq : attachVectors svecs Metric.cosine
                = svecs.map _normalize_row := by
              unfold attachVectors
              dsimp only
              exact _normalize_matrix_eq_map svecs
            rw [hveq] at hvin
            rcases List.mem_map.mp hvin with ⟨v0, hv0, rfl⟩
            exact sumsq_normalize_le_one v0
          have hbound : ∀ x ∈ (attachCentroids clusters Metric.cosine).map
              (fun c => dotList c v), -1 ≤ x ∧ x ≤ 1 := by
            intro x hx
            rcases List.mem_map.mp hx with ⟨c, hcin, rfl⟩
            have hcn : sumsq c ≤ 1 := by
              have hceq : attachCentroids clusters Metric.cosine
                  = (clusters.map (fun c2 => c2.centroid)).map _normalize_row := by
                unfold attachCentroids
                dsimp only
                exact _normalize_matrix_eq_map _
              rw [hceq] at hcin
              rcases List.mem_map.mp hcin with ⟨c0, hc0, rfl⟩
              exact sumsq_normalize_le_one c0
            exact dotList_bounds c v hcn hvn
          refine ⟨_, hscore, ?_⟩
          exact getD_bounds _ _ hbound

/-- C7 witness: a cosine run with unit centroid `[0, 1]` and unit satellite
vector `[1, 0]`; the nearest attachment records score `0`, which lies in
`[-1, 1]`. -/
theorem C7_cosine_normalization_witness :
    ∃ s, w7rec.score = some s ∧ -1 ≤ s ∧ s ≤ 1 :=
  C7_cosine_normalization.2 [[1, 0]] [w7sat] w7clusters w7payload w7rec
    (by norm_num [attach_satellites, attachLoop, attachOne, attachNearest,
      attachCentroids, attachVectors, _normalize_matrix, _normalize_row,
      l2norm, sumsq, matrixSize, dotList, argmaxList, argmaxAux,
      lastClusterIdx, nucleusToCluster, w7clusters, w7sat, w7payload, w7rec,
      List.enum, List.enumFrom, List.filter, Real.sqrt_one])
    (by simp [w7payload]) rfl

end RSTFlow
